import Mathlib

/-!
Verification of the direct-syscall filesystem layer (SteveLauC/fs).

This file gives a shallow embedding of the core algorithms of the repository
and proves/refutes the frozen claims about them:

* `syscall_result` — the syscall gateway's return-value decoder
  (src/backend/libc_like_syscall.rs).
* `makedev` / `major` / `minor` — the device-id bit packing
  (src/backend/major_minor.rs).
* `get_access_mode` / `get_creation_mode` / `resolve_open_flags` — the
  open-flag resolver (src/open_option.rs).
* `readdir` — the directory enumeration engine (`Dir::readdir` in
  src/backend/encapsulation.rs), modelled over an abstract sequence of
  kernel fills.
* `realpath` — the path canonicalization engine (src/backend/realpath.rs),
  modelled over an abstract filesystem oracle, with recursion fuel.

Machine integers are embedded as `Nat`/`Int` with explicit `% 2 ^ w`
truncation where the Rust code performs a narrowing cast.  Rust `panic!`
(`unwrap` / `expect`) is modelled as a distinct outcome constructor, kept
apart from `Result::Err`.
-/

namespace SysFs

/-! ## Syscall gateway (src/backend/libc_like_syscall.rs, `syscall_result`)

```rust
fn syscall_result(ret_val: usize) -> Result<isize, c_int> {
    match ret_val as isize {
        minus_errno if (-4095..=-1).contains(&minus_errno) => Err(-minus_errno as c_int),
        success_ret_value => Ok(success_ret_value),
    }
}
```
-/

/-- Two's-complement reinterpretation of a 64-bit machine word: the embedding
of `ret_val as isize` on a 64-bit target. -/
def toSigned64 (v : Nat) : Int :=
  if v % 2 ^ 64 < 2 ^ 63 then ((v % 2 ^ 64 : Nat) : Int)
  else ((v % 2 ^ 64 : Nat) : Int) - 2 ^ 64

/-- Embedding of `syscall_result`: the raw word is reinterpreted as signed;
values in `-4095..=-1` are errors (negated into a positive error number),
everything else is a success value. -/
def syscall_result (ret_val : Nat) : Except Int Int :=
  let minus_errno := toSigned64 ret_val
  if -4095 ≤ minus_errno ∧ minus_errno ≤ -1 then .error (-minus_errno)
  else .ok minus_errno

/-! ## Device-id packing (src/backend/major_minor.rs)

```rust
pub(crate) fn major(dev: libc::dev_t) -> libc::c_uint {
    let mut major = 0;
    major |= (dev & 0x00000000000fff00) >> 8;
    major |= (dev & 0xfffff00000000000) >> 32;
    major as libc::c_uint
}

pub(crate) fn minor(dev: libc::dev_t) -> libc::c_uint {
    let mut minor = 0;
    minor |= dev & 0x00000000000000ff;
    minor |= (dev & 0x00000ffffff00000) >> 12;
    minor as libc::c_uint
}

pub(crate) fn makedev(major: libc::c_uint, minor: libc::c_uint) -> libc::dev_t {
    let major = major as libc::dev_t;
    let minor = minor as libc::dev_t;
    let mut dev = 0;
    dev |= (major & 0x00000fff) << 8;
    dev |= (major & 0xfffff000) << 32;
    dev |= minor & 0x000000ff;
    dev |= (minor & 0xffffff00) << 12;
    dev
}
```

`c_uint` is 32 bits and `dev_t` 64 bits, so the `as` casts are embedded as
`% 2 ^ 32` (the `c_uint → dev_t` widening is value-preserving).  None of the
shifted masked values can exceed 64 bits, so the `u64` arithmetic never
wraps and needs no further truncation. -/

/-- Embedding of `makedev`. -/
def makedev (ma mi : Nat) : Nat :=
  let major := ma % 2 ^ 32
  let minor := mi % 2 ^ 32
  ((major &&& 0x00000fff) <<< 8) |||
  ((major &&& 0xfffff000) <<< 32) |||
  (minor &&& 0x000000ff) |||
  ((minor &&& 0xffffff00) <<< 12)

/-- Embedding of `major`; the trailing `% 2 ^ 32` is the `as c_uint` cast. -/
def major (dev : Nat) : Nat :=
  (((dev &&& 0x00000000000fff00) >>> 8) |||
   ((dev &&& 0xfffff00000000000) >>> 32)) % 2 ^ 32

/-- Embedding of `minor`; the trailing `% 2 ^ 32` is the `as c_uint` cast. -/
def minor (dev : Nat) : Nat :=
  ((dev &&& 0x00000000000000ff) |||
   ((dev &&& 0x00000ffffff00000) >>> 12)) % 2 ^ 32

/-- Bit extraction through a contiguous mask `(2 ^ k - 1) <<< s`. -/
theorem testBit_and_mask (c s k x : Nat) (hc : c = (2 ^ k - 1) <<< s) (i : Nat) :
    (x &&& c).testBit i = (x.testBit i && (decide (s ≤ i) && decide (i - s < k))) := by
  subst hc
  simp [Nat.testBit_land, Nat.testBit_shiftLeft, Nat.testBit_two_pow_sub_one, ge_iff_le]

end SysFs

namespace SysFs

/-- C2 device-id round-trip, `major` component. -/
theorem major_makedev (ma mi : Nat) (hma : ma < 2 ^ 32) :
    major (makedev ma mi) = ma := by
  apply Nat.eq_of_testBit_eq
  intro i
  rcases lt_or_ge i 32 with hi | hi
  · unfold major makedev
    simp only [Nat.testBit_mod_two_pow, Nat.testBit_lor, Nat.testBit_shiftLeft,
      Nat.testBit_shiftRight, Nat.mod_eq_of_lt hma,
      testBit_and_mask 0x00000fff 0 12 _ (by decide),
      testBit_and_mask 0xfffff000 12 20 _ (by decide),
      testBit_and_mask 0x000000ff 0 8 _ (by decide),
      testBit_and_mask 0xffffff00 8 24 _ (by decide),
      testBit_and_mask 0x00000000000fff00 8 12 _ (by decide),
      testBit_and_mask 0xfffff00000000000 44 20 _ (by decide)]
    interval_cases i <;> simp [Nat.testBit_mod_two_pow]
  · have h2 : ¬ i < 32 := by omega
    have h3 : ma.testBit i = false :=
      Nat.testBit_lt_two_pow (lt_of_lt_of_le hma (Nat.pow_le_pow_right (by norm_num) hi))
    unfold major
    rw [Nat.testBit_mod_two_pow]
    simp [h2, h3]

/-- C2 device-id round-trip, `minor` component. -/
theorem minor_makedev (ma mi : Nat) (hmi : mi < 2 ^ 32) :
    minor (makedev ma mi) = mi := by
  apply Nat.eq_of_testBit_eq
  intro i
  rcases lt_or_ge i 32 with hi | hi
  · unfold minor makedev
    simp only [Nat.testBit_mod_two_pow, Nat.testBit_lor, Nat.testBit_shiftLeft,
      Nat.testBit_shiftRight, Nat.mod_eq_of_lt hmi,
      testBit_and_mask 0x00000fff 0 12 _ (by decide),
      testBit_and_mask 0xfffff000 12 20 _ (by decide),
      testBit_and_mask 0x000000ff 0 8 _ (by decide),
      testBit_and_mask 0xffffff00 8 24 _ (by decide),
      testBit_and_mask 0x00000000000fff00 8 12 _ (by decide),
      testBit_and_mask 0x00000ffffff00000 20 24 _ (by decide)]
    interval_cases i <;> simp [Nat.testBit_mod_two_pow]
  · have h2 : ¬ i < 32 := by omega
    have h3 : mi.testBit i = false :=
      Nat.testBit_lt_two_pow (lt_of_lt_of_le hmi (Nat.pow_le_pow_right (by norm_num) hi))
    unfold minor
    rw [Nat.testBit_mod_two_pow]
    simp [h2, h3]

/-- C1: the gateway's result decoder classifies a raw 64-bit return value `v`
as an error iff its signed reinterpretation lies in `-4095..=-1`, in which
case the (positive) negated error number is returned; every other value —
including ones whose signed reinterpretation is negative but below the band —
is returned as a success value. -/
theorem syscall_result_spec (v : Nat) (hv : v < 2 ^ 64) :
    ((∃ e, syscall_result v = .error e) ↔
      (-4095 ≤ toSigned64 v ∧ toSigned64 v ≤ -1)) ∧
    (∀ e, syscall_result v = .error e →
      e = -(toSigned64 v) ∧ 1 ≤ e ∧ e ≤ 4095) ∧
    (¬(-4095 ≤ toSigned64 v ∧ toSigned64 v ≤ -1) →
      syscall_result v = .ok (toSigned64 v)) := by
  simp only [syscall_result]
  by_cases h : -4095 ≤ toSigned64 v ∧ toSigned64 v ≤ -1
  · rw [if_pos h]
    refine ⟨⟨fun _ => h, fun _ => ⟨_, rfl⟩⟩, ?_, fun hn => absurd h hn⟩
    intro e he
    injection he with h2
    omega
  · rw [if_neg h]
    refine ⟨⟨?_, fun hh => absurd hh h⟩, ?_, fun _ => rfl⟩
    · rintro ⟨e, he⟩
      exact Except.noConfusion he
    · intro e he
      exact Except.noConfusion he

/-- Witness for `syscall_result_spec` at the error-band boundary
`v = 2 ^ 64 - 4095` (signed value `-4095`). -/
theorem syscall_result_spec_witness :
    (2 ^ 64 - 4095 < 2 ^ 64) ∧
    (((∃ e, syscall_result (2 ^ 64 - 4095) = .error e) ↔
        (-4095 ≤ toSigned64 (2 ^ 64 - 4095) ∧ toSigned64 (2 ^ 64 - 4095) ≤ -1)) ∧
      (∀ e, syscall_result (2 ^ 64 - 4095) = .error e →
        e = -(toSigned64 (2 ^ 64 - 4095)) ∧ 1 ≤ e ∧ e ≤ 4095) ∧
      (¬(-4095 ≤ toSigned64 (2 ^ 64 - 4095) ∧ toSigned64 (2 ^ 64 - 4095) ≤ -1) →
        syscall_result (2 ^ 64 - 4095) = .ok (toSigned64 (2 ^ 64 - 4095)))) :=
  ⟨by decide, syscall_result_spec (2 ^ 64 - 4095) (by decide)⟩

/-- C2: for every major/minor pair within 32 bits, decoding the encoded
device id returns the original pair. -/
theorem makedev_roundtrip (ma mi : Nat) (hma : ma < 2 ^ 32) (hmi : mi < 2 ^ 32) :
    major (makedev ma mi) = ma ∧ minor (makedev ma mi) = mi :=
  ⟨major_makedev ma mi hma, minor_makedev ma mi hmi⟩

/-- Witness for `makedev_roundtrip` at a concrete pair. -/
theorem makedev_roundtrip_witness :
    (0xdeadbeef < 2 ^ 32) ∧ (0xcafebabe < 2 ^ 32) ∧
    (major (makedev 0xdeadbeef 0xcafebabe) = 0xdeadbeef ∧
     minor (makedev 0xdeadbeef 0xcafebabe) = 0xcafebabe) :=
  ⟨by decide, by decide, makedev_roundtrip 0xdeadbeef 0xcafebabe (by decide) (by decide)⟩

/-! ## Open-flag resolver (src/open_option.rs)

Flag constants are the Linux x86-64 values used by the `libc` crate (the
repository targets the Linux syscall ABI directly).  `O_LARGEFILE` is `0`
on this 64-bit target. -/

def O_RDONLY : Nat := 0x0
def O_WRONLY : Nat := 0x1
def O_RDWR : Nat := 0x2
def O_ACCMODE : Nat := 0x3
def O_CREAT : Nat := 0x40
def O_EXCL : Nat := 0x80
def O_NOCTTY : Nat := 0x100
def O_TRUNC : Nat := 0x200
def O_APPEND : Nat := 0x400
def O_NONBLOCK : Nat := 0x800
def O_NDELAY : Nat := 0x800
def O_DSYNC : Nat := 0x1000
def O_ASYNC : Nat := 0x2000
def O_DIRECT : Nat := 0x4000
def O_LARGEFILE : Nat := 0x0
def O_DIRECTORY : Nat := 0x10000
def O_NOFOLLOW : Nat := 0x20000
def O_NOATIME : Nat := 0x40000
def O_CLOEXEC : Nat := 0x80000
def O_SYNC : Nat := 0x101000
def O_FSYNC : Nat := 0x101000
def O_RSYNC : Nat := 0x101000
def O_PATH : Nat := 0x200000
def O_TMPFILE : Nat := 0x410000
def EINVAL : Nat := 22

/-- Union of all flag bits declared in the `bitflags!` block for
`Flags` (src/backend/encapsulation.rs:20-80); `Flags::from_bits` succeeds
exactly when its argument contains no bit outside this set. -/
def FLAGS_ALL : Nat :=
  O_ACCMODE ||| O_APPEND ||| O_ASYNC ||| O_CLOEXEC ||| O_CREAT ||| O_DIRECT |||
  O_DIRECTORY ||| O_DSYNC ||| O_EXCL ||| O_FSYNC ||| O_LARGEFILE ||| O_NOATIME |||
  O_NOCTTY ||| O_NDELAY ||| O_NOFOLLOW ||| O_NONBLOCK ||| O_PATH ||| O_RDONLY |||
  O_RDWR ||| O_RSYNC ||| O_SYNC ||| O_TMPFILE ||| O_TRUNC ||| O_WRONLY

/-- Embedding of `bitflags`' `Flags::from_bits` over 32-bit bit patterns:
`Some` iff no unknown bit is set. -/
def flags_from_bits (bits : Nat) : Option Nat :=
  if bits &&& (0xFFFFFFFF ^^^ FLAGS_ALL) = 0 then some bits else none

instance {ε α : Type} [DecidableEq ε] [DecidableEq α] : DecidableEq (Except ε α) :=
  fun x y =>
    match x, y with
    | .ok a, .ok b =>
      if h : a = b then .isTrue (by rw [h])
      else .isFalse (fun hh => h (by injection hh))
    | .error a, .error b =>
      if h : a = b then .isTrue (by rw [h])
      else .isFalse (fun hh => h (by injection hh))
    | .ok _, .error _ => .isFalse (fun hh => Except.noConfusion hh)
    | .error _, .ok _ => .isFalse (fun hh => Except.noConfusion hh)

/-- Embedding of `OpenOptions::get_access_mode` (src/open_option.rs:68-82). -/
def get_access_mode (read write append : Bool) : Except Nat Nat :=
  match read, write, append with
  | true, false, false => .ok O_RDONLY
  | false, true, false => .ok O_WRONLY
  | true, true, false => .ok O_RDWR
  | false, _, true => .ok (O_WRONLY ||| O_APPEND)
  | true, _, true => .ok (O_RDWR ||| O_APPEND)
  | false, false, false => .error EINVAL

/-- The final `Ok(match (create, truncate, create_new) ...)` table of
`OpenOptions::get_creation_mode` (src/open_option.rs:104-111). -/
def creation_bits (create truncate create_new : Bool) : Nat :=
  match create, truncate, create_new with
  | false, false, false => 0
  | true, false, false => O_CREAT
  | false, true, false => O_TRUNC
  | true, true, false => O_CREAT ||| O_TRUNC
  | _, _, true => O_CREAT ||| O_EXCL

/-- Embedding of `OpenOptions::get_creation_mode` (src/open_option.rs:84-112):
the validity check on `(write, append)` followed by the creation-flag table. -/
def get_creation_mode (write append truncate create create_new : Bool) :
    Except Nat Nat :=
  match write, append with
  | true, false => .ok (creation_bits create truncate create_new)
  | false, false =>
    if truncate || create || create_new then .error EINVAL
    else .ok (creation_bits create truncate create_new)
  | _, true =>
    if truncate && !create_new then .error EINVAL
    else .ok (creation_bits create truncate create_new)

/-- Outcome of the flag computation in `OpenOptions::open`:
a flags word, an error number, or a `panic!` (from `Option::unwrap`). -/
inductive OpenFlagsResult where
  | ok : Nat → OpenFlagsResult
  | err : Nat → OpenFlagsResult
  | panicked : OpenFlagsResult
deriving DecidableEq

/-- Embedding of the flag computation in `OpenOptions::open`
(src/open_option.rs:220-229):

```rust
let mut flag = Flags::from_bits(libc::O_CLOEXEC).unwrap();
flag |= Flags::from_bits(self.get_access_mode()?).unwrap();
flag |= Flags::from_bits(self.get_creation_mode()?).unwrap();
flag |= Flags::from_bits(self.custom_flags as libc::c_int & !libc::O_ACCMODE).unwrap();
```

`custom_flags` is taken as a 32-bit bit pattern; `!libc::O_ACCMODE` in
`i32` is the pattern `0xFFFFFFFF ^^^ O_ACCMODE`. -/
def resolve_open_flags (read write append truncate create create_new : Bool)
    (custom_flags : Nat) : OpenFlagsResult :=
  match flags_from_bits O_CLOEXEC with
  | none => .panicked
  | some f0 =>
    match get_access_mode read write append with
    | .error e => .err e
    | .ok access =>
      match flags_from_bits access with
      | none => .panicked
      | some f1 =>
        match get_creation_mode write append truncate create create_new with
        | .error e => .err e
        | .ok creation =>
          match flags_from_bits creation with
          | none => .panicked
          | some f2 =>
            match flags_from_bits ((custom_flags % 2 ^ 32) &&& (0xFFFFFFFF ^^^ O_ACCMODE)) with
            | none => .panicked
            | some f3 => .ok (f0 ||| f1 ||| f2 ||| f3)

/-- C6: the access-mode sub-resolution realises exactly the table of §4.5:
`(T,F,F)` read-only, `(F,T,F)` write-only, `(T,T,F)` read-write,
`(F,*,T)` write-only+append, `(T,*,T)` read-write+append, and `(F,F,F)` is
rejected with `EINVAL`. -/
theorem get_access_mode_table :
    get_access_mode true false false = .ok O_RDONLY ∧
    get_access_mode false true false = .ok O_WRONLY ∧
    get_access_mode true true false = .ok O_RDWR ∧
    (∀ w : Bool, get_access_mode false w true = .ok (O_WRONLY ||| O_APPEND)) ∧
    (∀ w : Bool, get_access_mode true w true = .ok (O_RDWR ||| O_APPEND)) ∧
    get_access_mode false false false = .error EINVAL := by
  decide

/-- C7: the creation-mode sub-resolution errors (with `EINVAL`) iff
(a) neither write nor append is set while one of truncate/create/create-new
is, or (b) append and truncate are both set without create-new; on every
valid input it returns the creation-flag table (`O_CREAT` for create,
`O_TRUNC` for truncate, both for both, `O_CREAT|O_EXCL` whenever create-new
is set, ignoring create and truncate). -/
theorem get_creation_mode_spec :
    ∀ w a t c cn : Bool,
      (get_creation_mode w a t c cn = .error EINVAL ↔
        ((w = false ∧ a = false ∧ (t = true ∨ c = true ∨ cn = true)) ∨
         (a = true ∧ t = true ∧ cn = false))) ∧
      (get_creation_mode w a t c cn ≠ .error EINVAL →
        get_creation_mode w a t c cn =
          .ok (if cn then O_CREAT ||| O_EXCL
               else if c && t then O_CREAT ||| O_TRUNC
               else if c then O_CREAT
               else if t then O_TRUNC
               else 0)) := by
  decide

/-- Witness for `get_creation_mode_spec`: the write-only/create row. -/
theorem get_creation_mode_spec_witness :
    get_creation_mode true false false true false ≠ .error EINVAL ∧
    get_creation_mode true false false true false =
      .ok (if false then O_CREAT ||| O_EXCL
           else if true && false then O_CREAT ||| O_TRUNC
           else if true then O_CREAT
           else if false then O_TRUNC
           else 0) :=
  ⟨by decide, (get_creation_mode_spec true false false true false).2 (by decide)⟩

/-- A successful access-mode result is made of recognised flag bits only. -/
theorem access_mode_known (r w a : Bool) (am : Nat)
    (h : get_access_mode r w a = .ok am) : flags_from_bits am = some am := by
  cases r <;> cases w <;> cases a <;> simp only [get_access_mode] at h <;>
    first
      | exact Except.noConfusion h
      | (injection h with h2; subst h2; decide)

/-- A successful creation-mode result is the creation-flag table value. -/
theorem creation_mode_ok (w a t c cn : Bool) (cm : Nat)
    (h : get_creation_mode w a t c cn = .ok cm) : cm = creation_bits c t cn := by
  cases w <;> cases a <;> cases t <;> cases c <;> cases cn <;>
    simp only [get_creation_mode] at h <;>
    first
      | exact Except.noConfusion h
      | (injection h with h2; subst h2; rfl)

/-- The creation-flag table values are recognised flags with no
access-mode bits. -/
theorem creation_bits_known (c t cn : Bool) :
    flags_from_bits (creation_bits c t cn) = some (creation_bits c t cn) ∧
    creation_bits c t cn &&& O_ACCMODE = 0 := by
  cases c <;> cases t <;> cases cn <;> exact ⟨by decide, by decide⟩

/-- Oring in a word with no bits in the mask `m` does not change the
masked-out part. -/
theorem lor_and_eq_of_and_eq_zero (x y m : Nat) (h : x &&& m = 0) :
    (x ||| y) &&& m = y &&& m := by
  apply Nat.eq_of_testBit_eq
  intro i
  have hx : (x &&& m).testBit i = false := by rw [h]; simp
  rw [Nat.testBit_land] at hx
  simp only [Nat.testBit_land, Nat.testBit_lor]
  cases hm : m.testBit i <;> cases hxi : x.testBit i <;> simp_all

/-- Symmetric version of `lor_and_eq_of_and_eq_zero`. -/
theorem and_lor_right_eq_of_and_eq_zero (x y m : Nat) (h : y &&& m = 0) :
    (x ||| y) &&& m = x &&& m := by
  rw [Nat.lor_comm]
  exact lor_and_eq_of_and_eq_zero y x m h

/-- C8 counterexample: a valid open intent whose extra custom flag (bit 2,
value `0x4`) is outside the `Flags` bit set makes `OpenOptions::open` panic
on `Flags::from_bits(...).unwrap()` instead of passing any flags integer to
the open primitive. -/
theorem resolve_open_flags_counterexample :
    get_access_mode true false false = .ok O_RDONLY ∧
    get_creation_mode false false false false false = .ok 0 ∧
    resolve_open_flags true false false false false false 0x4 = .panicked ∧
    OpenFlagsResult.panicked ≠
      .ok (O_CLOEXEC ||| O_RDONLY ||| 0 |||
           ((0x4 % 2 ^ 32) &&& (0xFFFFFFFF ^^^ O_ACCMODE))) := by
  decide

/-- C8 (amended): for every valid open intent whose custom flags, after the
access-mode bits are masked out, contain only recognised flag bits, the
final flags integer equals the bitwise-or of the access mode, the creation
mode, `O_CLOEXEC` and the masked custom flags — and the custom flags cannot
alter the computed access mode. -/
theorem resolve_open_flags_spec
    (r w a t c cn : Bool) (custom am cm : Nat)
    (h1 : get_access_mode r w a = .ok am)
    (h2 : get_creation_mode w a t c cn = .ok cm)
    (h3 : ((custom % 2 ^ 32) &&& (0xFFFFFFFF ^^^ O_ACCMODE)) &&&
            (0xFFFFFFFF ^^^ FLAGS_ALL) = 0) :
    resolve_open_flags r w a t c cn custom =
      .ok (O_CLOEXEC ||| am ||| cm |||
           ((custom % 2 ^ 32) &&& (0xFFFFFFFF ^^^ O_ACCMODE))) ∧
    (O_CLOEXEC ||| am ||| cm |||
       ((custom % 2 ^ 32) &&& (0xFFFFFFFF ^^^ O_ACCMODE))) &&& O_ACCMODE =
      am &&& O_ACCMODE := by
  have hcm := creation_mode_ok w a t c cn cm h2
  subst hcm
  have hck := creation_bits_known c t cn
  constructor
  · have h0 : flags_from_bits O_CLOEXEC = some O_CLOEXEC := by decide
    have ham := access_mode_known r w a am h1
    have hcu : flags_from_bits ((custom % 2 ^ 32) &&& (0xFFFFFFFF ^^^ O_ACCMODE)) =
        some ((custom % 2 ^ 32) &&& (0xFFFFFFFF ^^^ O_ACCMODE)) := by
      unfold flags_from_bits
      rw [if_pos h3]
    simp only [resolve_open_flags, h0, h1, ham, h2, hck.1, hcu]
  · have hcu0 : ((custom % 2 ^ 32) &&& (0xFFFFFFFF ^^^ O_ACCMODE)) &&& O_ACCMODE = 0 := by
      rw [Nat.land_assoc, (by decide : (0xFFFFFFFF ^^^ O_ACCMODE) &&& O_ACCMODE = 0)]
      simp
    rw [and_lor_right_eq_of_and_eq_zero _ _ _ hcu0,
        and_lor_right_eq_of_and_eq_zero _ _ _ hck.2,
        lor_and_eq_of_and_eq_zero _ _ _ (by decide : O_CLOEXEC &&& O_ACCMODE = 0)]

/-- Witness for `resolve_open_flags_spec` with read access and custom flag
`O_NOFOLLOW`. -/
theorem resolve_open_flags_spec_witness :
    get_access_mode true false false = .ok O_RDONLY ∧
    get_creation_mode false false false false false = .ok 0 ∧
    ((0x20000 % 2 ^ 32) &&& (0xFFFFFFFF ^^^ O_ACCMODE)) &&&
      (0xFFFFFFFF ^^^ FLAGS_ALL) = 0 ∧
    (resolve_open_flags true false false false false false 0x20000 =
        .ok (O_CLOEXEC ||| O_RDONLY ||| 0 |||
             ((0x20000 % 2 ^ 32) &&& (0xFFFFFFFF ^^^ O_ACCMODE))) ∧
      (O_CLOEXEC ||| O_RDONLY ||| 0 |||
         ((0x20000 % 2 ^ 32) &&& (0xFFFFFFFF ^^^ O_ACCMODE))) &&& O_ACCMODE =
        O_RDONLY &&& O_ACCMODE) :=
  ⟨by decide, by decide, by decide,
    resolve_open_flags_spec true false false false false false 0x20000 O_RDONLY 0
      (by decide) (by decide) (by decide)⟩

/-! ## Directory enumeration engine (`Dir::readdir`,
src/backend/encapsulation.rs:688-726)

```rust
pub(crate) fn readdir(&mut self) -> Option<Result<Dirent>> {
    if self.entries.is_empty() {
        let num_read = match getdents64(&self.fd.as_fd(), &mut self.buf) {
            Err(e) => return Some(Err(e)),
            Ok(n) => n,
        };
        if num_read == 0 { return None; }
        let mut cursor = 0_usize;
        while cursor < num_read {
            ... let entry = Dirent::new(...);
            // skip "." and ".."
            if entry.name != "." && entry.name != ".." {
                self.entries.push_back(entry);
            }
            cursor += (*ptr_to_d_entry).d_reclen as usize;
        }
    }
    if let Some(entry) = self.entries.pop_front() { Some(Ok(entry)) } else { None }
}
```

The kernel interaction is abstracted to the sequence of record batches the
successive `getdents64` fills deliver (each fill parses into a list of
records; a buffer only large enough for a couple of records makes the
batches short).  The exhausted directory (a zero-byte fill, and every fill
after it) is the empty batch list.  `getdents64` I/O errors are outside
the modelled behaviour (C3 is about the success path). -/

/-- One parsed `linux_dirent64` record: inode, `d_type` tag, name. -/
structure DirentRec where
  ino : Nat
  d_type : Nat
  name : String
deriving DecidableEq

/-- State of a `Dir` stream: the queue of already-parsed entries and the
batches the remaining kernel fills will deliver. -/
structure DirSt where
  entries : List DirentRec
  fills : List (List DirentRec)
deriving DecidableEq

/-- The `skip "." and ".."` filter condition of the drain loop. -/
def keepEntry (r : DirentRec) : Bool :=
  r.name ≠ "." && r.name ≠ ".."

/-- Embedding of one `Dir::readdir` call: returns the delivered entry (or
`none` for "no more entries") and the successor state. -/
def readdir : DirSt → Option DirentRec × DirSt
  | ⟨[], []⟩ => (none, ⟨[], []⟩)
  | ⟨[], batch :: rest⟩ =>
    match batch.filter keepEntry with
    | [] => (none, ⟨[], rest⟩)
    | e :: es => (some e, ⟨es, rest⟩)
  | ⟨e :: es, fills⟩ => (some e, ⟨es, fills⟩)

/-- The non-dot records the remaining fills will deliver. -/
def pendingRecs : List (List DirentRec) → List DirentRec
  | [] => []
  | b :: rest => b.filter keepEntry ++ pendingRecs rest

/-- All entries the stream still owes: queued ones plus pending fills. -/
def remainingOutputs (st : DirSt) : List DirentRec :=
  st.entries ++ pendingRecs st.fills

/-- Every remaining fill contains at least one record other than `.`/`..`. -/
def goodFills (fills : List (List DirentRec)) : Prop :=
  ∀ b ∈ fills, b.filter keepEntry ≠ []

instance (fills : List (List DirentRec)) : Decidable (goodFills fills) :=
  inferInstanceAs (Decidable (∀ b ∈ fills, b.filter keepEntry ≠ []))

theorem goodFills_nil : goodFills [] := by
  intro b hb
  exact absurd hb (List.not_mem_nil b)

/-- C3 counterexample: with a scratch buffer just large enough for the two
records `.` and `..` (first fill `[".", ".."]`, second fill `["a"]`), the
first `readdir` call signals end-of-stream even though the entry `"a"` has
never been returned; a later call then still returns `"a"`. -/
theorem readdir_counterexample :
    (readdir ⟨[], [[⟨1, 4, "."⟩, ⟨2, 4, ".."⟩], [⟨3, 8, "a"⟩]]⟩).fst = none ∧
    remainingOutputs ⟨[], [[⟨1, 4, "."⟩, ⟨2, 4, ".."⟩], [⟨3, 8, "a"⟩]]⟩ =
      [⟨3, 8, "a"⟩] ∧
    (readdir (readdir ⟨[], [[⟨1, 4, "."⟩, ⟨2, 4, ".."⟩], [⟨3, 8, "a"⟩]]⟩).snd).fst =
      some ⟨3, 8, "a"⟩ := by
  decide

/-- C3 (amended): provided every kernel fill delivers at least one record
other than the literal names `.` and `..`, the stream is a faithful
exactly-once enumeration: whenever entries remain, `readdir` returns the
next one (never end-of-stream) and owes exactly the rest afterwards; once
none remain, `readdir` signals end-of-stream (not an error) and leaves the
state unchanged, so every subsequent call signals end-of-stream as well. -/
theorem readdir_stream_spec (st : DirSt) (h : goodFills st.fills) :
    (∀ r rs, remainingOutputs st = r :: rs →
      (readdir st).fst = some r ∧
      remainingOutputs (readdir st).snd = rs ∧
      goodFills (readdir st).snd.fills) ∧
    (remainingOutputs st = [] →
      (readdir st).fst = none ∧ (readdir st).snd = st) := by
  obtain ⟨entries, fills⟩ := st
  constructor
  · intro r rs hrr
    match entries, fills with
    | e :: es, fills =>
      simp only [readdir]
      simp only [remainingOutputs, List.cons_append] at hrr ⊢
      obtain ⟨h1, h2⟩ := List.cons.injEq .. ▸ hrr
      exact ⟨by rw [h1], by rw [← h2], h⟩
    | [], [] =>
      simp only [remainingOutputs, pendingRecs, List.append_nil] at hrr
      exact absurd hrr (List.cons_ne_nil r rs).symm
    | [], b :: rest =>
      have hb : b.filter keepEntry ≠ [] := h b (List.mem_cons_self b rest)
      match hfb : b.filter keepEntry with
      | [] => exact absurd hfb hb
      | e :: es =>
        simp only [readdir, hfb]
        simp only [remainingOutputs, pendingRecs, hfb, List.nil_append,
          List.cons_append] at hrr ⊢
        obtain ⟨h1, h2⟩ := List.cons.injEq .. ▸ hrr
        refine ⟨by rw [h1], by rw [← h2], ?_⟩
        intro b2 hb2
        exact h b2 (List.mem_cons_of_mem b hb2)
  · intro h0
    simp only [remainingOutputs] at h0
    have he : entries = [] := by
      cases entries with
      | nil => rfl
      | cons e es => exact absurd h0 (List.cons_ne_nil e _)
    subst he
    simp only [List.nil_append] at h0
    cases fills with
    | nil => exact ⟨rfl, rfl⟩
    | cons b rest =>
      have hb : b.filter keepEntry ≠ [] := h b (List.mem_cons_self b rest)
      simp only [pendingRecs] at h0
      exact absurd (List.append_eq_nil.mp h0).1 hb

/-- Witness for `readdir_stream_spec` on a two-fill stream. -/
theorem readdir_stream_spec_witness :
    goodFills [[⟨1, 4, "."⟩, ⟨5, 8, "x"⟩], [⟨6, 8, "y"⟩]] ∧
    ((∀ r rs,
        remainingOutputs ⟨[], [[⟨1, 4, "."⟩, ⟨5, 8, "x"⟩], [⟨6, 8, "y"⟩]]⟩ = r :: rs →
        (readdir ⟨[], [[⟨1, 4, "."⟩, ⟨5, 8, "x"⟩], [⟨6, 8, "y"⟩]]⟩).fst = some r ∧
        remainingOutputs (readdir ⟨[], [[⟨1, 4, "."⟩, ⟨5, 8, "x"⟩], [⟨6, 8, "y"⟩]]⟩).snd = rs ∧
        goodFills (readdir ⟨[], [[⟨1, 4, "."⟩, ⟨5, 8, "x"⟩], [⟨6, 8, "y"⟩]]⟩).snd.fills) ∧
      (remainingOutputs ⟨[], [[⟨1, 4, "."⟩, ⟨5, 8, "x"⟩], [⟨6, 8, "y"⟩]]⟩ = [] →
        (readdir ⟨[], [[⟨1, 4, "."⟩, ⟨5, 8, "x"⟩], [⟨6, 8, "y"⟩]]⟩).fst = none ∧
        (readdir ⟨[], [[⟨1, 4, "."⟩, ⟨5, 8, "x"⟩], [⟨6, 8, "y"⟩]]⟩).snd =
          ⟨[], [[⟨1, 4, "."⟩, ⟨5, 8, "x"⟩], [⟨6, 8, "y"⟩]]⟩)) :=
  ⟨by decide,
    readdir_stream_spec ⟨[], [[⟨1, 4, "."⟩, ⟨5, 8, "x"⟩], [⟨6, 8, "y"⟩]]⟩ (by decide)⟩

end SysFs

namespace SysFs

/-! ## Path canonicalization engine (src/backend/realpath.rs)

```rust
pub(crate) fn realpath<P: AsRef<Path>>(path: P) -> Result<PathBuf> {
    let cwd = current_dir().expect("can not get cwd");
    let mut parser = RealpathParser::new(
        if path.as_ref().is_absolute() { Some(PathBuf::from("/")) } else { Some(cwd) },
        Some(path),
    );
    while let Some(entry) = parser.remaining_next_entry() {
        // Check the `parsed` part exists before we proceed
        if parser.parsed.try_exists()? == false {
            return Err(Error::new(ErrorKind::NotFound, "No such file or directory"));
        }
        if is_dot(entry.as_os_str()) {
            continue;
        } else if is_a_pair_of_dots(entry.as_os_str()) {
            parser.parsed_cd_to_parent();
        } else {
            parser.parsed_push_back(entry);
        }
        if parser.parsed.is_symlink() {
            let mut link_content = parser.parsed.read_link().expect("can not follow symlink");
            if link_content.is_relative() {
                // A relative symlink is relative to the parent directory of that link.
                link_content = parser.parsed.parent().expect("must have a parent")
                    .join(link_content);
            }
            // A symlink can be literally anything, should also be parsed.
            parser.replace_parsed_with(realpath(link_content)?);
        }
    }
    Ok(parser.parsed.clone())
}
```

The embedding works on paths as the component lists Rust's
`Path::components()` produces: an optional leading root `/` followed by
`.`, `..` and normal-name components.  The `parsed` accumulator is always
absolute and is represented as the list of its normal components ( `[]` is
`/`).  `parsed_cd_to_parent` — `PathBuf::parent`, implemented in the source
by truncating the length field in place — is `List.dropLast`, which is a
no-op on the root, exactly as `parent()` returns `None` on `/` and the
code skips the truncation.  `PathBuf::push` of the root component resets
the accumulator to `/`.

The filesystem the engine queries (`try_exists`, `is_symlink`,
`read_link`, `current_dir`) is an oracle structure; `read_link` and
`current_dir` return `Option` because the code calls `.expect(...)` on
them: a `none` terminates the program by panic, modelled by the distinct
`panicked` outcome.  Since a cyclic symlink chain makes the code recurse
forever, the embedding carries fuel, one unit per call and per loop
iteration; `outOfFuel` marks exhaustion and is a model artifact, distinct
from every behaviour of the code. -/

/-- One path component as produced by `Path::components()`. -/
inductive Comp where
  | root
  | dot
  | dotdot
  | compName : String → Comp
deriving DecidableEq

/-- Error kinds surfaced by the canonicalization engine: `ErrorKind::NotFound`
from the existence check, or an arbitrary other kernel error (by number)
propagated by `?` from `try_exists`. -/
inductive IOErr where
  | notFound
  | other : Nat → IOErr
deriving DecidableEq

/-- Result of the embedded `realpath`. -/
inductive RpRes where
  | ok : List String → RpRes
  | err : IOErr → RpRes
  | panicked : RpRes
  | outOfFuel : RpRes
deriving DecidableEq

/-- The filesystem oracle `realpath` queries. -/
structure SymFS where
  tryExists : List String → Except IOErr Bool
  isSymlink : List String → Bool
  readLink : List String → Option (List Comp)
  cwd : Option (List String)

/-- `Path::is_absolute`: the component list starts with the root. -/
def isAbsolute (p : List Comp) : Bool :=
  p.head? = some Comp.root

/-- Effect of one non-`.` component on the `parsed` accumulator:
`..` is `parsed_cd_to_parent`, a name is `parsed_push_back`, and pushing
the root component resets the accumulator to `/`. -/
def applyComp (parsed : List String) : Comp → List String
  | .root => []
  | .dot => parsed
  | .dotdot => parsed.dropLast
  | .compName s => parsed ++ [s]

mutual

/-- Embedding of `realpath`: read the cwd (panicking if that fails), start
the accumulator at `/` for an absolute input and at the cwd otherwise, and
run the component loop. -/
def realpath (fs : SymFS) : Nat → List Comp → RpRes
  | 0, _ => .outOfFuel
  | fuel + 1, path =>
    match fs.cwd with
    | none => .panicked
    | some cwd => realpathLoop fs fuel path (if isAbsolute path then [] else cwd)

/-- The `while let Some(entry) = parser.remaining_next_entry()` loop:
check that `parsed` exists, consume one component, then (except after `.`,
whose branch `continue`s) run the symlink check. -/
def realpathLoop (fs : SymFS) : Nat → List Comp → List String → RpRes
  | _, [], parsed => .ok parsed
  | 0, _ :: _, _ => .outOfFuel
  | fuel + 1, entry :: rest, parsed =>
    match fs.tryExists parsed with
    | .error e => .err e
    | .ok false => .err IOErr.notFound
    | .ok true =>
      match entry with
      | .dot => realpathLoop fs fuel rest parsed
      | _ => symlinkCheck fs fuel rest (applyComp parsed entry)

/-- The `if parser.parsed.is_symlink() { ... }` tail of a loop iteration:
read the link target (panicking if that fails), anchor a relative target at
the parent directory of the link, recursively canonicalize it, replace the
accumulator with the result (propagating its failure), and continue the
loop. -/
def symlinkCheck (fs : SymFS) : Nat → List Comp → List String → RpRes
  | 0, _, _ => .outOfFuel
  | fuel + 1, rest, parsed =>
    if fs.isSymlink parsed then
      match fs.readLink parsed with
      | none => .panicked
      | some target =>
        let result :=
          if isAbsolute target then realpath fs fuel target
          else
            match parsed with
            | [] => .panicked
            | _ :: _ =>
              realpath fs fuel (Comp.root :: (parsed.dropLast.map Comp.compName ++ target))
        match result with
        | .ok p => realpathLoop fs fuel rest p
        | r => r
    else realpathLoop fs fuel rest parsed

end

/-- A filesystem where every path exists and nothing is a symlink;
the cwd is `/home/user`. -/
def fsPlain : SymFS where
  tryExists := fun _ => .ok true
  isSymlink := fun _ => false
  readLink := fun _ => none
  cwd := some ["home", "user"]


/-- A filesystem where `/a/link` is a symlink to the relative target `b`
and `/a/b` is a symlink to the absolute target `/c`. -/
def fsNest : SymFS where
  tryExists := fun _ => .ok true
  isSymlink := fun p => p == ["a", "link"] || p == ["a", "b"]
  readLink := fun p =>
    if p == ["a", "link"] then some [Comp.compName "b"]
    else if p == ["a", "b"] then some [Comp.root, Comp.compName "c"]
    else none
  cwd := some []

/-- A filesystem where only `/` and `/d` exist. -/
def fsMissingTail : SymFS where
  tryExists := fun p => .ok (p == ([] : List String) || p == ["d"])
  isSymlink := fun _ => false
  readLink := fun _ => none
  cwd := some []

/-- A filesystem where `/badlink` is a symlink whose target cannot be
read (`read_link` fails). -/
def fsBadLink : SymFS where
  tryExists := fun _ => .ok true
  isSymlink := fun p => p == ["badlink"]
  readLink := fun _ => none
  cwd := some []

/-- A filesystem whose existence check always fails with error number 13
(permission denied). -/
def fsPermDenied : SymFS where
  tryExists := fun _ => .error (IOErr.other 13)
  isSymlink := fun _ => false
  readLink := fun _ => none
  cwd := some []

/-- C4: canonicalization identities.  A `.` component is discarded; a `..`
component replaces the accumulator by its parent and is a no-op on the
root; concretely `/..` canonicalizes to `/`, `/../test` to `/test`, and
`x/..` under cwd `/home/user` (with `x` an existing directory) back to
`/home/user`. -/
theorem realpath_identities :
    (∀ (fs : SymFS) (f : Nat) (rest : List Comp) (parsed : List String),
      fs.tryExists parsed = .ok true →
      realpathLoop fs (f + 1) (Comp.dot :: rest) parsed = realpathLoop fs f rest parsed) ∧
    (∀ (fs : SymFS) (f : Nat) (rest : List Comp) (parsed : List String),
      fs.tryExists parsed = .ok true →
      fs.isSymlink parsed.dropLast = false →
      realpathLoop fs (f + 1 + 1) (Comp.dotdot :: rest) parsed =
        realpathLoop fs f rest parsed.dropLast) ∧
    (∀ (fs : SymFS) (f : Nat) (rest : List Comp),
      fs.tryExists [] = .ok true →
      fs.isSymlink [] = false →
      realpathLoop fs (f + 1 + 1) (Comp.dotdot :: rest) [] =
        realpathLoop fs f rest []) ∧
    realpath fsPlain 20 [Comp.root, Comp.dotdot] = .ok [] ∧
    realpath fsPlain 20 [Comp.root, Comp.dotdot, Comp.compName "test"] = .ok ["test"] ∧
    realpath fsPlain 20 [Comp.compName "x", Comp.dotdot] = .ok ["home", "user"] := by
  refine ⟨?_, ?_, ?_, by decide, by decide, by decide⟩
  · intro fs f rest parsed h1
    simp only [realpathLoop, h1]
  · intro fs f rest parsed h1 h2
    simp only [realpathLoop, symlinkCheck, applyComp, h1, h2]
    simp
  · intro fs f rest h1 h2
    have h3 := (List.dropLast_nil (α := String)) ▸ h2
    simp only [realpathLoop, symlinkCheck, applyComp, h1, List.dropLast_nil, h2]
    simp

/-- Witness for `realpath_identities` (first conjunct at a concrete
filesystem and accumulator). -/
theorem realpath_identities_witness :
    fsPlain.tryExists ["home"] = .ok true ∧
    realpathLoop fsPlain 4 (Comp.dot :: [Comp.compName "a"]) ["home"] =
      realpathLoop fsPlain 3 [Comp.compName "a"] ["home"] :=
  ⟨by decide, realpath_identities.1 fsPlain 3 [Comp.compName "a"] ["home"] (by decide)⟩


/-- C5: symlink resolution.  When the accumulator names a symlink, a
relative target is resolved against the parent directory of the link
itself (the accumulator without the link's own name), an absolute target
restarts resolution from `/`; in both cases the resolved target is
recursively canonicalized and, on success, replaces the accumulator for
the rest of the walk (failures of the recursive resolution propagate).
The concrete conjunct resolves `/a/link -> b` and then `/a/b -> /c`,
nested, to `/c`. -/
theorem realpath_symlink_resolution :
    (∀ (fs : SymFS) (f : Nat) (rest target : List Comp) (parsed : List String)
        (s : String),
      fs.isSymlink (parsed ++ [s]) = true →
      fs.readLink (parsed ++ [s]) = some target →
      isAbsolute target = false →
      symlinkCheck fs (f + 1) rest (parsed ++ [s]) =
        match realpath fs f (Comp.root :: (parsed.map Comp.compName ++ target)) with
        | .ok p => realpathLoop fs f rest p
        | r => r) ∧
    (∀ (fs : SymFS) (f : Nat) (rest target : List Comp) (parsed : List String),
      fs.isSymlink parsed = true →
      fs.readLink parsed = some target →
      isAbsolute target = true →
      symlinkCheck fs (f + 1) rest parsed =
        match realpath fs f target with
        | .ok p => realpathLoop fs f rest p
        | r => r) ∧
    (∀ (fs : SymFS) (f : Nat) (path : List Comp) (c0 : List String),
      fs.cwd = some c0 →
      isAbsolute path = true →
      realpath fs (f + 1) path = realpathLoop fs f path []) ∧
    realpath fsNest 30 [Comp.root, Comp.compName "a", Comp.compName "link"] =
      .ok ["c"] := by
  refine ⟨?_, ?_, ?_, by decide⟩
  · intro fs f rest target parsed s h1 h2 h3
    have hne : parsed ++ [s] ≠ [] := by simp
    simp only [symlinkCheck, h1, h2, h3, if_true, List.dropLast_concat]
    cases hp : parsed ++ [s] with
    | nil => exact absurd hp hne
    | cons q qs =>
      have hdl : (q :: qs).dropLast = parsed := by rw [← hp, List.dropLast_concat]
      simp [hdl]
  · intro fs f rest target parsed h1 h2 h3
    simp only [symlinkCheck, h1, h2, h3, if_true]
  · intro fs f path c0 h1 h2
    simp only [realpath, h1, h2, if_true]

/-- Witness for `realpath_symlink_resolution` (absolute-target conjunct at
a concrete filesystem). -/
theorem realpath_symlink_resolution_witness :
    fsNest.isSymlink ["a", "b"] = true ∧
    fsNest.readLink ["a", "b"] = some [Comp.root, Comp.compName "c"] ∧
    isAbsolute [Comp.root, Comp.compName "c"] = true ∧
    symlinkCheck fsNest 6 [] ["a", "b"] =
      match realpath fsNest 5 [Comp.root, Comp.compName "c"] with
      | .ok p => realpathLoop fsNest 5 [] p
      | r => r :=
  ⟨by decide, by decide, by decide,
    realpath_symlink_resolution.2.1 fsNest 5 [] [Comp.root, Comp.compName "c"]
      ["a", "b"] (by decide) (by decide) (by decide)⟩

/-- C10: canonicalization verifies existence only before consuming each
component, never after appending the last one: appending a final normal
component that is not a symlink succeeds with no further existence check,
and concretely `/d/newfile` canonicalizes to itself on a filesystem where
only `/` and `/d` exist. -/
theorem realpath_no_check_after_last :
    (∀ (fs : SymFS) (f : Nat) (parsed : List String) (s : String),
      fs.tryExists parsed = .ok true →
      fs.isSymlink (parsed ++ [s]) = false →
      realpathLoop fs (f + 1 + 1) [Comp.compName s] parsed = .ok (parsed ++ [s])) ∧
    realpath fsMissingTail 20 [Comp.root, Comp.compName "d", Comp.compName "newfile"] =
      .ok ["d", "newfile"] ∧
    fsMissingTail.tryExists ["d", "newfile"] = .ok false := by
  refine ⟨?_, by decide, by decide⟩
  intro fs f parsed s h1 h2
  simp only [realpathLoop, symlinkCheck, applyComp, h1, h2]
  simp

/-- Witness for `realpath_no_check_after_last`: on `fsMissingTail` the
final component `newfile` is appended under `/d` although it does not
exist. -/
theorem realpath_no_check_after_last_witness :
    fsMissingTail.tryExists ["d"] = .ok true ∧
    fsMissingTail.isSymlink ["d", "newfile"] = false ∧
    realpathLoop fsMissingTail 5 [Comp.compName "newfile"] ["d"] =
      .ok ["d", "newfile"] :=
  ⟨by decide, by decide,
    realpath_no_check_after_last.1 fsMissingTail 3 ["d"] "newfile"
      (by decide) (by decide)⟩


/-- Helper for C9: any `Err` outcome of the canonicalization engine is
either the engine's own not-found error or an error some `try_exists`
query returned, propagated unchanged — simultaneously for the three
mutually recursive functions, by induction on the fuel. -/
theorem realpath_err_origin (fs : SymFS) : ∀ f : Nat,
    (∀ (path : List Comp) (e : IOErr), realpath fs f path = .err e →
      e = IOErr.notFound ∨ ∃ q, fs.tryExists q = .error e) ∧
    (∀ (rem : List Comp) (parsed : List String) (e : IOErr),
      realpathLoop fs f rem parsed = .err e →
      e = IOErr.notFound ∨ ∃ q, fs.tryExists q = .error e) ∧
    (∀ (rest : List Comp) (parsed : List String) (e : IOErr),
      symlinkCheck fs f rest parsed = .err e →
      e = IOErr.notFound ∨ ∃ q, fs.tryExists q = .error e) := by
  intro f
  induction f with
  | zero =>
    refine ⟨?_, ?_, ?_⟩
    · intro path e h
      simp [realpath] at h
    · intro rem parsed e h
      cases rem with
      | nil => simp [realpathLoop] at h
      | cons entry rest => simp [realpathLoop] at h
    · intro rest parsed e h
      simp [symlinkCheck] at h
  | succ f ih =>
    obtain ⟨ihR, ihL, ihS⟩ := ih
    have hloop : ∀ (rem : List Comp) (parsed : List String) (e : IOErr),
        realpathLoop fs (f + 1) rem parsed = .err e →
        e = IOErr.notFound ∨ ∃ q, fs.tryExists q = .error e := by
      intro rem parsed e h
      cases rem with
      | nil => simp [realpathLoop] at h
      | cons entry rest =>
        simp only [realpathLoop] at h
        cases hte : fs.tryExists parsed with
        | error e2 =>
          simp only [hte] at h
          injection h with h4
          exact Or.inr ⟨parsed, h4 ▸ hte⟩
        | ok b =>
          cases b with
          | false =>
            simp only [hte] at h
            injection h with h4
            exact Or.inl h4.symm
          | true =>
            simp only [hte] at h
            cases entry with
            | dot => exact ihL _ _ _ h
            | root => exact ihS _ _ _ h
            | dotdot => exact ihS _ _ _ h
            | compName s => exact ihS _ _ _ h
    have hsym : ∀ (rest : List Comp) (parsed : List String) (e : IOErr),
        symlinkCheck fs (f + 1) rest parsed = .err e →
        e = IOErr.notFound ∨ ∃ q, fs.tryExists q = .error e := by
      intro rest parsed e h
      simp only [symlinkCheck] at h
      cases hs : fs.isSymlink parsed with
      | false =>
        simp only [hs] at h
        simp only [Bool.false_eq_true, if_false] at h
        exact ihL _ _ _ h
      | true =>
        simp only [hs, if_true] at h
        cases hrl : fs.readLink parsed with
        | none =>
          simp only [hrl] at h
          exact RpRes.noConfusion h
        | some target =>
          simp only [hrl] at h
          cases hab : isAbsolute target with
          | true =>
            simp only [hab, if_true] at h
            cases hr : realpath fs f target with
            | ok p =>
              simp only [hr] at h
              exact ihL _ _ _ h
            | err e2 =>
              simp only [hr] at h
              injection h with h4
              exact h4 ▸ ihR _ _ hr
            | panicked =>
              simp only [hr] at h
              exact RpRes.noConfusion h
            | outOfFuel =>
              simp only [hr] at h
              exact RpRes.noConfusion h
          | false =>
            simp only [hab, Bool.false_eq_true, if_false] at h
            cases parsed with
            | nil =>
              simp only at h
              exact RpRes.noConfusion h
            | cons q qs =>
              cases hr : realpath fs f
                  (Comp.root :: ((q :: qs).dropLast.map Comp.compName ++ target)) with
              | ok p =>
                simp only [hr] at h
                exact ihL _ _ _ h
              | err e2 =>
                simp only [hr] at h
                injection h with h4
                exact h4 ▸ ihR _ _ hr
              | panicked =>
                simp only [hr] at h
                exact RpRes.noConfusion h
              | outOfFuel =>
                simp only [hr] at h
                exact RpRes.noConfusion h
    have hreal : ∀ (path : List Comp) (e : IOErr),
        realpath fs (f + 1) path = .err e →
        e = IOErr.notFound ∨ ∃ q, fs.tryExists q = .error e := by
      intro path e h
      simp only [realpath] at h
      cases hc : fs.cwd with
      | none =>
        simp only [hc] at h
        exact RpRes.noConfusion h
      | some c0 =>
        simp only [hc] at h
        exact ihL _ _ _ h
    exact ⟨hreal, hloop, hsym⟩

/-- C9 counterexample: when reading a symlink's target fails
(`read_link().expect("can not follow symlink")`), the canonicalization
terminates the program by panic instead of returning an error result. -/
theorem realpath_readlink_failure_counterexample :
    fsBadLink.isSymlink ["badlink"] = true ∧
    fsBadLink.readLink ["badlink"] = none ∧
    realpath fsBadLink 10 [Comp.root, Comp.compName "badlink"] = .panicked ∧
    RpRes.panicked ≠ RpRes.err IOErr.notFound := by
  decide

/-- C9 (amended): every `Err` outcome the canonicalization returns carries
either its own not-found error or an existence-check error unchanged
(nothing is swallowed or translated); concretely a permission error (13)
from `try_exists` is propagated as-is.  (A `read_link` failure, by
contrast, panics — see the counterexample.) -/
theorem realpath_error_propagation :
    (∀ (fs : SymFS) (f : Nat) (path : List Comp) (e : IOErr),
      realpath fs f path = .err e →
      e = IOErr.notFound ∨ ∃ q, fs.tryExists q = .error e) ∧
    realpath fsPermDenied 10 [Comp.root, Comp.compName "x"] =
      .err (IOErr.other 13) := by
  refine ⟨?_, by decide⟩
  intro fs f path e h
  exact (realpath_err_origin fs f).1 path e h

/-- Witness for `realpath_error_propagation` at the permission-denied
filesystem. -/
theorem realpath_error_propagation_witness :
    realpath fsPermDenied 10 [Comp.root, Comp.compName "x"] =
      .err (IOErr.other 13) ∧
    (IOErr.other 13 = IOErr.notFound ∨
      ∃ q, fsPermDenied.tryExists q = .error (IOErr.other 13)) :=
  ⟨by decide,
    realpath_error_propagation.1 fsPermDenied 10 [Comp.root, Comp.compName "x"]
      (IOErr.other 13) (by decide)⟩

end SysFs
